/-
  Verification of the zinc-ai meeting pipeline against its specification.

  Shallow embedding of:
  * `src/meetings/diarization.ts` (`SpeakerDiarizationServiceImpl`), and
  * the meeting pipeline orchestrator (`MeetingPipelineServiceImpl`).

  Numbers (JS `number`) are modelled as `ℚ`; JS `Map` (insertion-ordered)
  as an association list with in-place update; JS `Set` as a first-occurrence
  list.  Fallible collaborator calls are modelled as `Except String` values
  supplied through explicit environment records.
-/
import Mathlib

namespace Zinc

/-! ## Data model (from `src/meetings/types.ts`, merged type file) -/

/-- `Expression` union type from the types file. -/
inductive Expression
  | neutral | happy | sad | angry | fearful | disgusted | surprised
  | smiling | frowning | confused | skeptical | thinking | interested
  | bored | eye_roll
deriving DecidableEq, Repr

/-- `{pitch, yaw, roll}` head-pose record. -/
structure HeadPose where
  pitch : ℚ
  yaw : ℚ
  roll : ℚ
deriving DecidableEq, Repr

/-- `RawTranscriptSegment` interface. -/
structure RawTranscriptSegment where
  text : String
  startTime : ℚ
  endTime : ℚ
  speakerLabel : Option String
  confidence : Option ℚ
deriving DecidableEq, Repr

/-- `VisualObservation` interface. -/
structure VisualObservation where
  timestamp : ℚ
  participantId : String
  participantName : Option String
  isSpeaking : Bool
  speakingConfidence : ℚ
  expression : Expression
  expressionConfidence : ℚ
  headPose : Option HeadPose
deriving DecidableEq, Repr

/-- `'high' | 'medium' | 'low'` engagement / quality levels. -/
inductive Level
  | high | medium | low
deriving DecidableEq, Repr

/-- `'whisper' | 'recall'` audio source tag. -/
inductive AudioSource
  | whisper | recall
deriving DecidableEq, Repr

/-- `DiarizedSegment` interface.  `expressions` is the expression
distribution list (expression, percentage). -/
structure DiarizedSegment where
  text : String
  startTime : ℚ
  endTime : ℚ
  speakerId : String
  speakerName : String
  confidence : ℚ
  dominantExpression : Expression
  expressionConfidence : ℚ
  expressions : List (Expression × ℚ)
  isSpeaking : Bool
  engagement : Level
  audioSource : AudioSource
  visualMatch : Bool
deriving DecidableEq, Repr

/-- `DiarizedParticipant` interface.  `expressionTimeline` entries are
(time, expression). -/
structure DiarizedParticipant where
  id : String
  name : String
  totalSpeakingTime : ℚ
  speakingPercentage : ℚ
  segmentCount : ℕ
  dominantExpression : Expression
  expressionTimeline : List (ℚ × Expression)
  engagementLevel : Level
  wordCount : ℕ
deriving DecidableEq, Repr

/-- `DiarizationResult` interface. -/
structure DiarizationResult where
  segments : List DiarizedSegment
  participants : List DiarizedParticipant
  duration : ℚ
  quality : Level
deriving DecidableEq, Repr

/-! ## JavaScript semantics helpers -/

/-- JS `a || b` for an optional string: `undefined` and `""` are falsy. -/
def jsOrString (a : Option String) (b : String) : String :=
  match a with
  | some s => if s = "" then b else s
  | none => b

/-- JS `a || b` for an optional number: `undefined` and `0` are falsy. -/
def jsOrNum (a : Option ℚ) (b : ℚ) : ℚ :=
  match a with
  | some x => if x = 0 then b else x
  | none => b

/-- JS `Math.round` on a rational: round half away from zero is
`Math.round(x) = ⌊x + 0.5⌋` for every JS number `x`. -/
def jsRound (x : ℚ) : ℤ :=
  ⌊x + 1/2⌋

/-- JS `Map.get(k) ?? default` on an insertion-ordered association list. -/
def jsMapGet? {κ α : Type} [DecidableEq κ] (m : List (κ × α)) (k : κ) : Option α :=
  (m.find? (fun e => decide (e.1 = k))).map (·.2)

/-- `m.get(k) || d` where absence yields the default. -/
def jsMapGetD {κ α : Type} [DecidableEq κ] (m : List (κ × α)) (k : κ) (d : α) : α :=
  (jsMapGet? m k).getD d

/-- JS `Map.has`. -/
def jsMapHas {κ α : Type} [DecidableEq κ] (m : List (κ × α)) (k : κ) : Bool :=
  (jsMapGet? m k).isSome

/-- JS `Map.set`: update an existing key in place (keeping its position in
iteration order), or append a new key at the end. -/
def jsMapSet {κ α : Type} [DecidableEq κ] : List (κ × α) → κ → α → List (κ × α)
  | [], k, v => [(k, v)]
  | e :: rest, k, v =>
      if e.1 = k then (k, v) :: rest else e :: jsMapSet rest k v

/-- JS `Set` insertion order: the list of keys in order of first occurrence,
starting from an already-collected prefix `acc`. -/
def firstOccFrom {κ : Type} [DecidableEq κ] (acc : List κ) (l : List κ) : List κ :=
  l.foldl (fun a k => if k ∈ a then a else a ++ [k]) acc

/-- Keys of a list in order of first occurrence (JS `Set` iteration order). -/
def firstOccurrence {κ : Type} [DecidableEq κ] (l : List κ) : List κ :=
  firstOccFrom [] l

/-! ## Diarization engine (from `src/meetings/diarization.ts`) -/

/-- Stable sort of transcript segments by the comparator
`(a, b) => a.startTime - b.startTime` (JS `Array.prototype.sort` is a
stable sort; insertion sort realises the same function). -/
def sortTranscript (l : List RawTranscriptSegment) : List RawTranscriptSegment :=
  List.insertionSort (fun a b => a.startTime ≤ b.startTime) l

/-- Stable sort of visual observations by `(a, b) => a.timestamp - b.timestamp`. -/
def sortVisual (l : List VisualObservation) : List VisualObservation :=
  List.insertionSort (fun a b => a.timestamp ≤ b.timestamp) l

/-- First pass of `buildSpeakerNameMap`: record each observation's
`participantName` for its participant when truthy and not yet mapped. -/
def nameMapPass1 (observations : List VisualObservation) : List (String × String) :=
  observations.foldl
    (fun m obs =>
      match obs.participantName with
      | some n => if n ≠ "" ∧ ¬ (jsMapHas m obs.participantId = true) then
            jsMapSet m obs.participantId n
          else m
      | none => m)
    []

/-- Second pass: hand out the caller-supplied `participantNames` in order to
participants still unnamed (tracking `nameIndex`). -/
def nameMapPass2 (uniq : List String) (participantNames : List String)
    (m0 : List (String × String)) : List (String × String) :=
  (uniq.foldl
    (fun (acc : List (String × String) × ℕ) pid =>
      if ¬ (jsMapHas acc.1 pid = true) ∧ acc.2 < participantNames.length then
        (jsMapSet acc.1 pid (participantNames.getD acc.2 ""), acc.2 + 1)
      else acc)
    (m0, 0)).1

/-- Third pass: name everyone left `Participant N` with a running counter. -/
def nameMapPass3 (uniq : List String) (m0 : List (String × String)) :
    List (String × String) :=
  (uniq.foldl
    (fun (acc : List (String × String) × ℕ) pid =>
      if ¬ (jsMapHas acc.1 pid = true) then
        (jsMapSet acc.1 pid ("Participant " ++ toString acc.2), acc.2 + 1)
      else acc)
    (m0, 1)).1

/-- `buildSpeakerNameMap(observations, participantNames)`. -/
def buildSpeakerNameMap (observations : List VisualObservation)
    (participantNames : List String) : List (String × String) :=
  let uniq := firstOccurrence (observations.map (·.participantId))
  nameMapPass3 uniq (nameMapPass2 uniq participantNames (nameMapPass1 observations))

/-- Observations overlapping a segment's `[startTime, endTime]` window
that are flagged speaking with confidence above `0.3`. -/
def qualifyingObs (visual : List VisualObservation) (seg : RawTranscriptSegment) :
    List VisualObservation :=
  (visual.filter (fun v =>
      decide (seg.startTime ≤ v.timestamp) && decide (v.timestamp ≤ seg.endTime))).filter
    (fun v => v.isSpeaking && decide ((3/10 : ℚ) < v.speakingConfidence))

/-- `speakerCounts.set(pid, (speakerCounts.get(pid) || 0) + confidence)`. -/
def scoreStep (m : List (String × ℚ)) (obs : VisualObservation) : List (String × ℚ) :=
  jsMapSet m obs.participantId
    (jsMapGetD m obs.participantId 0 + obs.speakingConfidence)

/-- The `speakerCounts` map: per participant, the sum of `speakingConfidence`
over the given observations, built in JS `Map` insertion order. -/
def speakerScores (l : List VisualObservation) : List (String × ℚ) :=
  l.foldl scoreStep []

/-- The `maxScore` loop: keep the first entry whose score strictly exceeds
everything seen so far, starting from accumulator `acc`. -/
def pickBest (acc : ℚ × String) (m : List (String × ℚ)) : ℚ × String :=
  m.foldl (fun a e => if a.1 < e.2 then (e.2, e.1) else a) acc

/-- Speaker chosen from a non-empty list of qualifying observations
(`maxScore = 0`, `speakerId = 'unknown'` initially). -/
def chooseSpeaker (l : List VisualObservation) : String :=
  (pickBest (0, "unknown") (speakerScores l)).2

/-- `mapSpeakerLabelsToParticipants`: per-label confidence-sum scores. -/
def labelScores (visual : List VisualObservation) (segs : List RawTranscriptSegment) :
    List (String × ℚ) :=
  segs.foldl (fun m seg => (qualifyingObs visual seg).foldl scoreStep m) []

/-- The `bestPid` loop of `mapSpeakerLabelsToParticipants`
(`bestPid = ''`, `bestScore = 0` initially). -/
def bestLabelPid (scores : List (String × ℚ)) : String :=
  (scores.foldl (fun (a : ℚ × String) e => if a.1 < e.2 then (e.2, e.1) else a)
    (0, "")).2

/-- `segmentsByLabel`: group segments by truthy `speakerLabel`, JS `Map`
insertion order, appending each segment to its label's bucket. -/
def segmentsByLabel (transcript : List RawTranscriptSegment) :
    List (String × List RawTranscriptSegment) :=
  transcript.foldl
    (fun m seg =>
      match seg.speakerLabel with
      | some lbl =>
          if lbl = "" then m
          else jsMapSet m lbl (jsMapGetD m lbl [] ++ [seg])
      | none => m)
    []

/-- `mapSpeakerLabelsToParticipants(transcript, visual)`: label → attributed
participant id and display name. -/
def mapSpeakerLabelsToParticipants (transcript : List RawTranscriptSegment)
    (visual : List VisualObservation) : List (String × String × String) :=
  (segmentsByLabel transcript).foldl
    (fun lm e =>
      let best := bestLabelPid (labelScores visual e.2)
      if best = "" then lm
      else
        let nm :=
          jsOrString
            ((visual.find? (fun v => decide (v.participantId = best))).bind
              (·.participantName))
            e.1
        jsMapSet lm e.1 (best, nm))
    []

/-- `analyzeExpressionsDuringSegment`: dominant expression, mean confidence
and rounded percentage distribution (sorted descending, stable). -/
def analyzeExpressions (observations : List VisualObservation) :
    Expression × ℚ × List (Expression × ℚ) :=
  if observations = [] then
    (Expression.neutral, 1/2, [(Expression.neutral, 100)])
  else
    let counts := observations.foldl
      (fun m o => jsMapSet m o.expression (jsMapGetD m o.expression 0 + 1))
      ([] : List (Expression × ℕ))
    let dominant := (counts.foldl
      (fun (a : Expression × ℕ) e => if a.2 < e.2 then e else a)
      (Expression.neutral, 0)).1
    let total : ℚ := observations.length
    let distribution :=
      List.insertionSort (fun a b => b.2 ≤ a.2)
        (counts.map (fun e => (e.1, ((jsRound ((e.2 : ℚ) / total * 100) : ℤ) : ℚ))))
    let avgConfidence :=
      (observations.map (·.expressionConfidence)).sum / total
    (dominant, avgConfidence, distribution)

/-- `assessEngagement(observations)`. -/
def assessEngagement (observations : List VisualObservation) : Level :=
  if observations = [] then Level.medium
  else
    let score : ℚ := observations.foldl
      (fun s obs =>
        let s1 := s +
          (match obs.headPose with
           | some hp =>
               if 30 < |hp.yaw| ∨ 20 < |hp.pitch| then (-1 : ℚ) else 1
           | none => 1/2)
        let s2 := if obs.expression ≠ Expression.neutral ∧
            obs.expression ≠ Expression.bored then s1 + 1/2 else s1
        if obs.isSpeaking then s2 + 1 else s2)
      0
    let avg := score / (observations.length : ℚ)
    if 1 < avg then Level.high else if (3/10 : ℚ) < avg then Level.medium
    else Level.low

/-- The per-segment body of the `diarize` loop. -/
def mkSegment (sortedVisual : List VisualObservation)
    (nameMap : List (String × String))
    (labelMap : List (String × String × String))
    (seg : RawTranscriptSegment) : DiarizedSegment :=
  let overlapping := sortedVisual.filter (fun v =>
    decide (seg.startTime ≤ v.timestamp) && decide (v.timestamp ≤ seg.endTime))
  let speakingObs := qualifyingObs sortedVisual seg
  let initName := jsOrString seg.speakerLabel "Unknown"
  let attributed : String × String × Bool :=
    if speakingObs = [] then
      match seg.speakerLabel with
      | some lbl =>
          if lbl ≠ "" then
            match jsMapGet? labelMap lbl with
            | some m => (m.1, m.2, false)
            | none => ("unknown", initName, false)
          else ("unknown", initName, false)
      | none => ("unknown", initName, false)
    else
      let sid := chooseSpeaker speakingObs
      (sid, jsOrString (jsMapGet? nameMap sid) initName, true)
  let ea := analyzeExpressions overlapping
  { text := seg.text
    startTime := seg.startTime
    endTime := seg.endTime
    speakerId := attributed.1
    speakerName := attributed.2.1
    confidence := if attributed.2.2 then 9/10 else jsOrNum seg.confidence (1/2)
    dominantExpression := ea.1
    expressionConfidence := ea.2.1
    expressions := ea.2.2
    isSpeaking := true
    engagement := assessEngagement overlapping
    audioSource := AudioSource.whisper
    visualMatch := attributed.2.2 }

/-- Word count `text.split(/\s+/).filter(Boolean).length`. -/
def countWords (text : String) : ℕ :=
  ((text.split (fun c => c.isWhitespace)).filter (fun s => s ≠ "")).length

/-- Fresh `DiarizedParticipant` created by `buildParticipantSummaries` when a
speaker id is first seen. -/
def freshParticipant (seg : DiarizedSegment) : DiarizedParticipant :=
  { id := seg.speakerId
    name := seg.speakerName
    totalSpeakingTime := 0
    speakingPercentage := 0
    segmentCount := 0
    dominantExpression := Expression.neutral
    expressionTimeline := []
    engagementLevel := Level.medium
    wordCount := 0 }

/-- The segment-accumulation phase of `buildParticipantSummaries`. -/
def accumParticipants (segments : List DiarizedSegment) :
    List (String × DiarizedParticipant) :=
  segments.foldl
    (fun m seg =>
      let p := (jsMapGet? m seg.speakerId).getD (freshParticipant seg)
      jsMapSet m seg.speakerId
        { p with
            totalSpeakingTime := p.totalSpeakingTime + (seg.endTime - seg.startTime)
            segmentCount := p.segmentCount + 1
            wordCount := p.wordCount + countWords seg.text
            expressionTimeline :=
              p.expressionTimeline ++ [(seg.startTime, seg.dominantExpression)] })
    []

/-- The per-participant finalisation pass of `buildParticipantSummaries`:
speaking percentage, dominant expression, engagement level. -/
def finalizeParticipant (totalSpeaking : ℚ) (visual : List VisualObservation)
    (p : DiarizedParticipant) : DiarizedParticipant :=
  let pct := if 0 < totalSpeaking then
      ((jsRound (p.totalSpeakingTime / totalSpeaking * 100) : ℤ) : ℚ)
    else 0
  let exprCounts := p.expressionTimeline.foldl
    (fun m e => jsMapSet m e.2 (jsMapGetD m e.2 0 + 1))
    ([] : List (Expression × ℕ))
  let dom := (exprCounts.foldl
    (fun (a : Expression × ℕ) e => if a.2 < e.2 then e else a)
    (p.dominantExpression, 0)).1
  let pv := visual.filter (fun v => decide (v.participantId = p.id))
  let lvl :=
    if pv = [] then p.engagementLevel
    else
      let engaged := (pv.filter (fun v =>
        decide (v.expression ≠ Expression.bored) &&
        decide (v.expression ≠ Expression.neutral))).length
      let ratio := (engaged : ℚ) / (pv.length : ℚ)
      if (1/2 : ℚ) < ratio then Level.high
      else if (1/5 : ℚ) < ratio then Level.medium else Level.low
  { p with
      speakingPercentage := pct
      dominantExpression := dom
      engagementLevel := lvl }

/-- `buildParticipantSummaries(segments, visual, nameMap)` (the name map
argument is unused in the source). -/
def buildParticipantSummaries (segments : List DiarizedSegment)
    (visual : List VisualObservation) : List DiarizedParticipant :=
  let base := accumParticipants segments
  let totalSpeaking := (base.map (fun e => e.2.totalSpeakingTime)).sum
  base.map (fun e => finalizeParticipant totalSpeaking visual e.2)

/-- `diarize(transcriptSegments, visualObservations, participantNames)` run
against buffer contents `buffer` (`this.observations`). -/
def diarize (buffer : List VisualObservation)
    (transcriptSegments : List RawTranscriptSegment)
    (visualObservations : List VisualObservation)
    (participantNames : List String) : DiarizationResult :=
  let allVisual := buffer ++ visualObservations
  let sortedTranscript := sortTranscript transcriptSegments
  let sortedVisual := sortVisual allVisual
  let speakerNameMap := buildSpeakerNameMap sortedVisual participantNames
  let speakerLabelMap := mapSpeakerLabelsToParticipants sortedTranscript sortedVisual
  let segments := sortedTranscript.map (mkSegment sortedVisual speakerNameMap speakerLabelMap)
  let participants := buildParticipantSummaries segments sortedVisual
  let duration :=
    match sortedTranscript.getLast?, sortedTranscript.head? with
    | some lastSeg, some firstSeg => lastSeg.endTime - firstSeg.startTime
    | _, _ => 0
  let matchRate :=
    ((segments.filter (·.visualMatch)).length : ℚ) / (max segments.length 1 : ℚ)
  let quality :=
    if (7/10 : ℚ) < matchRate then Level.high
    else if (3/10 : ℚ) < matchRate then Level.medium else Level.low
  { segments := segments
    participants := participants
    duration := duration
    quality := quality }

/-! ## Meeting pipeline orchestrator (`MeetingPipelineServiceImpl`)

The orchestrator is stateful and talks to fallible collaborators (the
meeting-bot client, the capture layer, the transcription backend, the review
generator).  Each collaborator call is modelled by an `Except String` value
supplied in an environment record; the clock is an explicit `now` field.
Thrown exceptions escaping a public method are modelled by the `thrown`
field of the outcome record, and emitted events by an explicit trace. -/

/-- `PipelineStatus` union type. -/
inductive PipelineStatus
  | idle | bot_joining | capturing | bot_processing | transcribing
  | analyzing | generating_review | complete | error
deriving DecidableEq, Repr

/-- `PipelineState` interface. -/
structure PipelineState where
  status : PipelineStatus
  meetingTitle : String
  meetingUrl : Option String
  platform : String
  botId : Option String
  captureActive : Bool
  participantCount : ℕ
  segmentCount : ℕ
  duration : ℕ
  error : Option String
  reviewId : Option String
  startedAt : Option ℕ
deriving DecidableEq, Repr

/-- `PipelineConfig` interface (platform kept as a string). -/
structure PipelineConfig where
  meetingUrl : String
  meetingTitle : String
  platform : String
  captureSourceId : Option String
  participantNames : List String
  recallApiKey : Option String
deriving DecidableEq, Repr

/-- Events emitted through `emit` (payloads reduced to what the claims
observe: the state snapshot for `status_changed`, the message for `error`,
the review id for `review_ready`). -/
inductive PipelineEvent
  | statusChanged (st : PipelineState)
  | errorEvent (message : String)
  | reviewReady (reviewId : String)
  | expressionUpdate (participantId : String)
  | participantDetected (count : ℕ)
deriving DecidableEq, Repr

/-- `isActive()`: not `idle`, `complete` or `error`. -/
def isActive (st : PipelineState) : Bool :=
  decide (st.status ≠ PipelineStatus.idle) &&
  decide (st.status ≠ PipelineStatus.complete) &&
  decide (st.status ≠ PipelineStatus.error)

/-- Environment for one `start()` call: outcome of the bot deployment
(`createBot`, message of the raw error), availability of the Electron
capture layer, outcome of the capture startup, and the clock. -/
structure StartEnv where
  deployBot : Except String String
  electronAvailable : Bool
  captureStart : Except String Unit
  now : ℕ
deriving Repr

/-- Observable outcome of one `start()` call: final pipeline state, whether
the duration ticker is running, the emitted events in order, and the
exception surfaced to the caller (if any). -/
structure StartOutcome where
  state : PipelineState
  timerRunning : Bool
  events : List PipelineEvent
  thrown : Option String
deriving Repr

/-- `start(config)`.

The body's `try` wraps `deployBot`, `startDurationTimer`, `startCapture` and
the final transition to `capturing`.  Of these, only `deployBot` can throw:
`startCapture` catches its own errors and merely logs them (returning early
when Electron is unavailable), `startDurationTimer` only schedules an
interval, and `emit` swallows handler errors.  The `catch` block sets
`status='error'`, records the message, emits `error` then `status_changed`,
and rethrows; it does not touch the duration timer. -/
def start (st : PipelineState) (timerRunning : Bool) (cfg : PipelineConfig)
    (env : StartEnv) : StartOutcome :=
  if isActive st then
    { state := st
      timerRunning := timerRunning
      events := []
      thrown := some "A pipeline is already active. Stop it first." }
  else
    let st1 : PipelineState :=
      { status := PipelineStatus.bot_joining
        meetingTitle := cfg.meetingTitle
        meetingUrl := some cfg.meetingUrl
        platform := cfg.platform
        botId := none
        captureActive := false
        participantCount := 0
        segmentCount := 0
        duration := 0
        error := none
        reviewId := none
        startedAt := some env.now }
    let ev1 := [PipelineEvent.statusChanged st1]
    match env.deployBot with
    | Except.error e =>
        let msg := "Failed to deploy bot: " ++ e
        let st2 := { st1 with status := PipelineStatus.error, error := some msg }
        { state := st2
          timerRunning := timerRunning
          events := ev1 ++ [PipelineEvent.errorEvent msg, PipelineEvent.statusChanged st2]
          thrown := some msg }
    | Except.ok botId =>
        let st2 := { st1 with botId := some botId }
        let captured : PipelineState × List PipelineEvent :=
          match cfg.captureSourceId with
          | none => (st2, [])
          | some _ =>
              if env.electronAvailable then
                match env.captureStart with
                | Except.ok _ =>
                    let s := { st2 with captureActive := true }
                    (s, [PipelineEvent.statusChanged s])
                | Except.error _ => (st2, [])
              else (st2, [])
        let st4 := { captured.1 with status := PipelineStatus.capturing }
        { state := st4
          timerRunning := true
          events := ev1 ++ captured.2 ++ [PipelineEvent.statusChanged st4]
          thrown := none }

/-! ### Bot-status polling (`waitForBotProcessing`) -/

/-- `RecallBotStatus` union type. -/
inductive RecallStatus
  | ready | joining | in_waiting_room | in_call | recording | processing
  | done | error | fatal
deriving DecidableEq, Repr

/-- One poll answer: `none` models a `getBotStatus` call that threw (the
loop ignores transient errors), `some s` a bot answering with status `s`. -/
def pollTerminal (s : Option RecallStatus) : Bool :=
  match s with
  | some RecallStatus.done => true
  | some RecallStatus.error => true
  | _ => false

/-- The polling loop body: poll `i`, return on `done`/`error`, otherwise
sleep 3000 ms and retry while fuel remains.  Result: (number of polls made,
whether a terminal status was seen). -/
def waitPolls (statuses : ℕ → Option RecallStatus) : ℕ → ℕ → ℕ × Bool
  | i, 0 => (i, false)
  | i, fuel + 1 =>
      if pollTerminal (statuses i) then (i + 1, true)
      else waitPolls statuses (i + 1) fuel

/-- `waitForBotProcessing(botId, maxWaitMs)`: the `while` guard
`Date.now() - startTime < maxWaitMs` admits poll `i` exactly when
`3000 * i < maxWaitMs` (each iteration ends with a 3000 ms sleep), so the
loop makes at most `⌈maxWaitMs / 3000⌉` polls; if none is terminal it logs
a warning and returns normally (second component `false`). -/
def waitForBotProcessing (statuses : ℕ → Option RecallStatus)
    (maxWaitMs : ℕ) : ℕ × Bool :=
  waitPolls statuses 0 ((maxWaitMs + 2999) / 3000)

/-! ### `stop()` -/

/-- A bot transcript segment (`RecallTranscriptSegment`, reduced to the
fields `stop()` reads). -/
structure RecallSeg where
  speakerId : ℕ
  text : String
  startTime : ℚ
  endTime : ℚ
  confidence : Option ℚ
deriving DecidableEq, Repr

/-- A local-transcription segment (`TranscriptSegment`, reduced to the
fields `stop()` reads). -/
structure WhisperSeg where
  text : String
  startTime : ℚ
  endTime : ℚ
  speakerName : String
  confidence : ℚ
deriving DecidableEq, Repr

/-- A generated review, reduced to its id. -/
structure Review where
  id : String
deriving DecidableEq, Repr

/-- Mapping of a bot transcript segment into a `RawTranscriptSegment`
(`speakerLabel` becomes `Speaker <id>`). -/
def mapRecallSeg (s : RecallSeg) : RawTranscriptSegment :=
  { text := s.text
    startTime := s.startTime
    endTime := s.endTime
    speakerLabel := some ("Speaker " ++ toString s.speakerId)
    confidence := s.confidence }

/-- Mapping of a local-transcription segment into a `RawTranscriptSegment`
(`speakerName || undefined`). -/
def mapWhisperSeg (s : WhisperSeg) : RawTranscriptSegment :=
  { text := s.text
    startTime := s.startTime
    endTime := s.endTime
    speakerLabel := if s.speakerName = "" then none else some s.speakerName
    confidence := some s.confidence }

/-- Environment for one `stop()` call. -/
structure StopEnv where
  captureCleanup : Except String Unit
  stopBot : Except String Unit
  statuses : ℕ → Option RecallStatus
  getRecording : Except String (Option (Option String))
  getTranscript : Except String (Option (List RecallSeg))
  transcribeFile : Except String (List WhisperSeg)
  generateReview : Except String Review
  moltbookUpload : Except String Unit
  now : ℕ

/-- Observable outcome of one `stop()` call. `diarizedTranscript` is a ghost
output recording the transcript-segment list handed to the diarization
engine (`none` when `stop` failed before reaching diarization or was a
no-op). -/
structure StopOutcome where
  state : PipelineState
  timerRunning : Bool
  review : Option Review
  events : List PipelineEvent
  thrown : Option String
  diarizedTranscript : Option (List RawTranscriptSegment)
  localTranscriptionAttempted : Bool

/-- Lines 162–185 of `stop()`: stop the bot, wait for processing, fetch the
recording (updating `audioFilePath` when an audio URL is present) and the
transcript; any throw inside this block is caught and logged, keeping
whatever had been assigned so far. -/
def botPhase (botId : Option String) (audio0 : Option String) (env : StopEnv) :
    Option String × List RawTranscriptSegment :=
  match botId with
  | none => (audio0, [])
  | some _ =>
      match env.stopBot with
      | Except.error _ => (audio0, [])
      | Except.ok _ =>
          match env.getRecording with
          | Except.error _ => (audio0, [])
          | Except.ok rec =>
              let audio1 :=
                match rec with
                | some (some url) => if url ≠ "" then some url else audio0
                | _ => audio0
              match env.getTranscript with
              | Except.error _ => (audio1, [])
              | Except.ok none => (audio1, [])
              | Except.ok (some segs) => (audio1, segs.map mapRecallSeg)

/-- Lines 191–206 of `stop()`: whenever an audio file path is available, run
local Whisper transcription; a non-empty result replaces the current
transcript segments, a failure or empty result leaves them unchanged.
Second component: whether local transcription was attempted. -/
def whisperPhase (audio : Option String) (segs : List RawTranscriptSegment)
    (env : StopEnv) : List RawTranscriptSegment × Bool :=
  match audio with
  | none => (segs, false)
  | some _ =>
      match env.transcribeFile with
      | Except.error _ => (segs, true)
      | Except.ok wsegs =>
          (if 0 < wsegs.length then wsegs.map mapWhisperSeg else segs, true)

/-- `stop()`.

The whole body after the `isActive` guard sits in a `try` whose `catch`
sets `status='error'`, records the message, emits `error` and
`status_changed`, resets working state and returns `null` — so no exception
propagates to the caller.  The only steps that can throw and are not
wrapped in an inner `catch` are the capture cleanup callback and the review
generation; bot interaction, local transcription and the Moltbook upload
are individually caught.  `buffer` is the visual-observation buffer
(`this.diarization` internal state); the source passes it to `diarize` both
implicitly (service state) and explicitly (`getVisualObservations()`), so
the observation list seen by `diarize` is `buffer ++ buffer`. -/
def stop (st : PipelineState) (timerRunning : Bool)
    (audioFilePath0 : Option String) (buffer : List VisualObservation)
    (participantNames : List String) (env : StopEnv) : StopOutcome :=
  if ¬ (isActive st = true) then
    { state := st
      timerRunning := timerRunning
      review := none
      events := []
      thrown := none
      diarizedTranscript := none
      localTranscriptionAttempted := false }
  else
    match env.captureCleanup with
    | Except.error e =>
        -- `stopCapture` throws before `stopDurationTimer` ran: the outer
        -- catch fires with the timer still in its incoming state.
        let stErr := { st with status := PipelineStatus.error, error := some e }
        { state := stErr
          timerRunning := timerRunning
          review := none
          events := [PipelineEvent.errorEvent e, PipelineEvent.statusChanged stErr]
          thrown := none
          diarizedTranscript := none
          localTranscriptionAttempted := false }
    | Except.ok _ =>
        let st1 := { st with captureActive := false }
        let st2 := { st1 with status := PipelineStatus.bot_processing }
        let ev2 := [PipelineEvent.statusChanged st2]
        -- `this.state.botId` is unchanged by the two preceding status
        -- mutations, so it is read off the incoming state directly.
        let bot := botPhase st.botId audioFilePath0 env
        let st3 := { st2 with status := PipelineStatus.transcribing }
        let ev3 := ev2 ++ [PipelineEvent.statusChanged st3]
        let whisper := whisperPhase bot.1 bot.2 env
        let st4 := { st3 with status := PipelineStatus.analyzing }
        let ev4 := ev3 ++ [PipelineEvent.statusChanged st4]
        let _diarization := diarize buffer whisper.1 buffer participantNames
        let st5 := { st4 with status := PipelineStatus.generating_review }
        let ev5 := ev4 ++ [PipelineEvent.statusChanged st5]
        match env.generateReview with
        | Except.error e =>
            let stErr := { st5 with status := PipelineStatus.error, error := some e }
            { state := stErr
              timerRunning := false
              review := none
              events := ev5 ++ [PipelineEvent.errorEvent e, PipelineEvent.statusChanged stErr]
              thrown := none
              diarizedTranscript := some whisper.1
              localTranscriptionAttempted := whisper.2 }
        | Except.ok review =>
            let st6 := { st5 with
              status := PipelineStatus.complete
              reviewId := some review.id }
            { state := st6
              timerRunning := false
              review := some review
              events := ev5 ++ [PipelineEvent.statusChanged st6,
                PipelineEvent.reviewReady review.id]
              thrown := none
              diarizedTranscript := some whisper.1
              localTranscriptionAttempted := whisper.2 }

/-! ### Ambient determinism environment for the diarization engine -/

/-- Internal state of `SpeakerDiarizationServiceImpl`: the visual
observation buffer. -/
structure DiarizationServiceState where
  observations : List VisualObservation
deriving DecidableEq, Repr

/-- Ambient effects a JS method could observe: the wall clock and a stream
of random numbers.  `diarize` in the source references neither
(`Date.now`/`Math.random` do not occur in its body), which the embedding
expresses by threading this record through the call. -/
structure AmbientEnv where
  now : ℕ
  random : ℕ → ℚ

/-- One `diarize` method call on a service whose buffer holds
`st.observations`: returns the result and the (unmutated) service state. -/
def diarizeCall (st : DiarizationServiceState) (_env : AmbientEnv)
    (transcriptSegments : List RawTranscriptSegment)
    (visualObservations : List VisualObservation)
    (participantNames : List String) :
    DiarizationResult × DiarizationServiceState :=
  (diarize st.observations transcriptSegments visualObservations participantNames, st)

/-! ## Specification-side definitions -/

/-- Sum of `speakingConfidence` over the observations of one participant. -/
def confSum (l : List VisualObservation) (pid : String) : ℚ :=
  ((l.filter (fun v => decide (v.participantId = pid))).map (·.speakingConfidence)).sum

/-- Refinement target, following the spec's words rather than the code: the
participant with the highest summed `speakingConfidence` over the given
(qualifying) observations, ties broken in favour of the participant whose
first qualifying observation comes earlier in observation order. -/
def specSelectedSpeaker (l : List VisualObservation) : String :=
  match firstOccurrence (l.map (·.participantId)) with
  | [] => "unknown"
  | p :: rest =>
      rest.foldl (fun best q => if confSum l best < confSum l q then q else best) p

/-! ## Lemmas: JS map and set primitives -/

theorem jsMapGet?_set_self {κ α : Type} [DecidableEq κ] (m : List (κ × α)) (k : κ)
    (v : α) : jsMapGet? (jsMapSet m k v) k = some v := by
  induction m with
  | nil => simp [jsMapSet, jsMapGet?]
  | cons e rest ih =>
      by_cases h : e.1 = k
      · simp [jsMapSet, h, jsMapGet?]
      · simpa [jsMapSet, h, jsMapGet?] using ih

theorem jsMapGet?_set_ne {κ α : Type} [DecidableEq κ] (m : List (κ × α)) (k k' : κ)
    (v : α) (h : k' ≠ k) : jsMapGet? (jsMapSet m k v) k' = jsMapGet? m k' := by
  induction m with
  | nil => simp [jsMapSet, jsMapGet?, h, Ne.symm h]
  | cons e rest ih =>
      by_cases he : e.1 = k
      · rw [show jsMapSet (e :: rest) k v = (k, v) :: rest by simp [jsMapSet, he]]
        simp only [jsMapGet?, List.find?]
        rw [show (decide ((k, v).1 = k') : Bool) = false by simp [Ne.symm h]]
        rw [show (decide (e.1 = k') : Bool) = false by simp [he ▸ Ne.symm h]]
      · rw [show jsMapSet (e :: rest) k v = e :: jsMapSet rest k v by
          simp [jsMapSet, he]]
        by_cases he' : e.1 = k'
        · simp [jsMapGet?, List.find?, he']
        · simp only [jsMapGet?, List.find?] at ih ⊢
          rw [show (decide (e.1 = k') : Bool) = false by simp [he']]
          exact ih

theorem keys_jsMapSet {κ α : Type} [DecidableEq κ] (m : List (κ × α)) (k : κ)
    (v : α) :
    (jsMapSet m k v).map Prod.fst =
      if k ∈ m.map Prod.fst then m.map Prod.fst else m.map Prod.fst ++ [k] := by
  induction m with
  | nil => simp [jsMapSet]
  | cons e rest ih =>
      by_cases h : e.1 = k
      · simp [jsMapSet, h]
      · simp only [jsMapSet, if_neg h, List.map_cons, ih, List.mem_cons]
        by_cases hk : k ∈ rest.map Prod.fst
        · simp [hk]
        · simp [hk, Ne.symm h]

/-! ## Lemmas: first-occurrence lists -/

theorem firstOccFrom_cons {κ : Type} [DecidableEq κ] (acc : List κ) (k : κ)
    (l : List κ) :
    firstOccFrom acc (k :: l) =
      firstOccFrom (if k ∈ acc then acc else acc ++ [k]) l := rfl

theorem mem_firstOccFrom {κ : Type} [DecidableEq κ] :
    ∀ (l acc : List κ) (k : κ), k ∈ firstOccFrom acc l ↔ k ∈ acc ∨ k ∈ l := by
  intro l
  induction l with
  | nil => intro acc k; simp [firstOccFrom]
  | cons a l ih =>
      intro acc k
      rw [firstOccFrom_cons, ih]
      by_cases ha : a ∈ acc
      · simp only [if_pos ha, List.mem_cons]
        constructor
        · rintro (h | h)
          · exact Or.inl h
          · exact Or.inr (Or.inr h)
        · rintro (h | h | h)
          · exact Or.inl h
          · exact Or.inl (h ▸ ha)
          · exact Or.inr h
      · simp only [if_neg ha, List.mem_append, List.mem_singleton, List.mem_cons]
        tauto

theorem nodup_firstOccFrom {κ : Type} [DecidableEq κ] :
    ∀ (l acc : List κ), acc.Nodup → (firstOccFrom acc l).Nodup := by
  intro l
  induction l with
  | nil => intro acc h; simpa [firstOccFrom] using h
  | cons a l ih =>
      intro acc h
      rw [firstOccFrom_cons]
      by_cases ha : a ∈ acc
      · simpa [if_pos ha] using ih acc h
      · refine ih _ ?_
        rw [if_neg ha]
        simp [List.nodup_append, h, ha]

/-! ## Lemmas: the speaker-score accumulator -/

theorem confSum_nil (k : String) : confSum [] k = 0 := rfl

theorem confSum_cons (o : VisualObservation) (l : List VisualObservation)
    (k : String) :
    confSum (o :: l) k =
      (if o.participantId = k then o.speakingConfidence else 0) + confSum l k := by
  by_cases h : o.participantId = k
  · simp [confSum, h]
  · simp [confSum, h]

theorem keys_foldl_scoreStep :
    ∀ (l : List VisualObservation) (m : List (String × ℚ)),
      (l.foldl scoreStep m).map Prod.fst =
        firstOccFrom (m.map Prod.fst) (l.map (·.participantId)) := by
  intro l
  induction l with
  | nil => intro m; rfl
  | cons o l ih =>
      intro m
      rw [List.foldl_cons, ih, List.map_cons, firstOccFrom_cons]
      rw [show (scoreStep m o).map Prod.fst =
        if o.participantId ∈ m.map Prod.fst then m.map Prod.fst
        else m.map Prod.fst ++ [o.participantId] from keys_jsMapSet m _ _]

theorem getD_foldl_scoreStep :
    ∀ (l : List VisualObservation) (m : List (String × ℚ)) (k : String),
      jsMapGetD (l.foldl scoreStep m) k 0 = jsMapGetD m k 0 + confSum l k := by
  intro l
  induction l with
  | nil => intro m k; simp [confSum_nil]
  | cons o l ih =>
      intro m k
      rw [List.foldl_cons, ih, confSum_cons]
      by_cases h : o.participantId = k
      · subst h
        rw [show jsMapGetD (scoreStep m o) o.participantId 0 =
            jsMapGetD m o.participantId 0 + o.speakingConfidence by
          simp [scoreStep, jsMapGetD, jsMapGet?_set_self]]
        simp [add_assoc]
      · rw [show jsMapGetD (scoreStep m o) k 0 = jsMapGetD m k 0 by
          simp [scoreStep, jsMapGetD, jsMapGet?_set_ne _ _ _ _ (fun hh => h hh.symm)]]
        simp [h]

theorem jsMapGet?_of_mem {κ α : Type} [DecidableEq κ] :
    ∀ (m : List (κ × α)), (m.map Prod.fst).Nodup →
      ∀ k v, (k, v) ∈ m → jsMapGet? m k = some v := by
  intro m
  induction m with
  | nil => intro _ k v hm; simp at hm
  | cons e rest ih =>
      intro hnd k v hm
      rw [List.map_cons, List.nodup_cons] at hnd
      rcases List.mem_cons.mp hm with h | h
      · rw [← h]
        simp [jsMapGet?, List.find?]
      · have hk : k ∈ rest.map Prod.fst :=
          List.mem_map.mpr ⟨(k, v), h, rfl⟩
        have hne : e.1 ≠ k := fun hek => hnd.1 (hek ▸ hk)
        have := ih hnd.2 k v h
        simpa [jsMapGet?, List.find?, hne] using this

theorem confSum_pos (l : List VisualObservation) (k : String)
    (hk : k ∈ l.map (·.participantId))
    (hpos : ∀ v ∈ l, 0 < v.speakingConfidence) : 0 < confSum l k := by
  induction l with
  | nil => simp at hk
  | cons o l ih =>
      rw [confSum_cons]
      rcases List.mem_map.mp hk with ⟨v, hv, hvk⟩
      rcases List.mem_cons.mp hv with h | h
      · subst h
        rw [if_pos hvk]
        have h1 : 0 < v.speakingConfidence := hpos v (List.mem_cons_self _ _)
        have h2 : 0 ≤ confSum l k := by
          have : ∀ x ∈ (l.filter (fun v => decide (v.participantId = k))).map
              (·.speakingConfidence), 0 ≤ x := by
            intro x hx
            rcases List.mem_map.mp hx with ⟨w, hw, hwx⟩
            exact hwx ▸ le_of_lt (hpos w (List.mem_cons_of_mem _ (List.mem_of_mem_filter hw)))
          exact List.sum_nonneg this
        linarith
      · have hk' : k ∈ l.map (·.participantId) := List.mem_map.mpr ⟨v, h, hvk⟩
        have := ih hk' (fun w hw => hpos w (List.mem_cons_of_mem _ hw))
        by_cases ho : o.participantId = k
        · have : 0 < o.speakingConfidence := hpos o (List.mem_cons_self _ _)
          rw [if_pos ho]
          linarith [ih hk' (fun w hw => hpos w (List.mem_cons_of_mem _ hw))]
        · rw [if_neg ho]
          simpa using this

/-! ## Lemmas: the maximum-score selection loop -/

theorem pickBest_entries (f : String → ℚ) :
    ∀ (m : List (String × ℚ)) (b : String), (∀ e ∈ m, e.2 = f e.1) →
      pickBest (f b, b) m =
        (f (m.foldl (fun best e => if f best < f e.1 then e.1 else best) b),
         m.foldl (fun best e => if f best < f e.1 then e.1 else best) b) := by
  intro m
  induction m with
  | nil => intro b _; rfl
  | cons e rest ih =>
      intro b hval
      have he : e.2 = f e.1 := hval e (List.mem_cons_self _ _)
      have hrest : ∀ x ∈ rest, x.2 = f x.1 :=
        fun x hx => hval x (List.mem_cons_of_mem _ hx)
      rw [pickBest, List.foldl_cons, List.foldl_cons]
      by_cases hlt : f b < f e.1
      · rw [if_pos (by rw [he]; exact hlt), if_pos hlt, he]
        exact ih e.1 hrest
      · rw [if_neg (by rw [he]; exact hlt), if_neg hlt]
        exact ih b hrest

theorem chooseSpeaker_eq_spec (l : List VisualObservation) (hne : l ≠ [])
    (hpos : ∀ v ∈ l, 0 < v.speakingConfidence) :
    chooseSpeaker l = specSelectedSpeaker l := by
  have hkeys : (speakerScores l).map Prod.fst =
      firstOccurrence (l.map (·.participantId)) := by
    have := keys_foldl_scoreStep l []
    simpa [speakerScores, firstOccurrence] using this
  have hnd : ((speakerScores l).map Prod.fst).Nodup := by
    rw [hkeys]
    exact nodup_firstOccFrom _ [] List.nodup_nil
  have hval : ∀ e ∈ speakerScores l, e.2 = confSum l e.1 := by
    intro e he
    have hget : jsMapGet? (speakerScores l) e.1 = some e.2 :=
      jsMapGet?_of_mem _ hnd e.1 e.2 (by simpa using he)
    have hgd := getD_foldl_scoreStep l [] e.1
    simp only [speakerScores] at hget
    rw [jsMapGetD, hget] at hgd
    simpa [speakerScores, jsMapGetD, jsMapGet?] using hgd
  cases hs : speakerScores l with
  | nil =>
      exfalso
      rcases List.exists_mem_of_ne_nil l hne with ⟨v, hv⟩
      have hm : v.participantId ∈ l.map (·.participantId) :=
        List.mem_map.mpr ⟨v, hv, rfl⟩
      have : v.participantId ∈ (speakerScores l).map Prod.fst := by
        rw [hkeys, firstOccurrence, mem_firstOccFrom]
        exact Or.inr hm
      rw [hs] at this
      simp at this
  | cons e rest =>
      have hmemk : ∀ k, k ∈ (speakerScores l).map Prod.fst →
          k ∈ l.map (·.participantId) := by
        intro k hk
        rw [hkeys, firstOccurrence, mem_firstOccFrom] at hk
        rcases hk with h | h
        · simp at h
        · exact h
      have hepos : 0 < e.2 := by
        rw [hval e (hs ▸ List.mem_cons_self _ _)]
        exact confSum_pos l e.1
          (hmemk e.1 (by rw [hs]; simp)) hpos
      have hrest : ∀ x ∈ rest, x.2 = confSum l x.1 :=
        fun x hx => hval x (hs ▸ List.mem_cons_of_mem _ hx)
      have hfirst : pickBest (0, "unknown") (e :: rest) =
          pickBest (confSum l e.1, e.1) rest := by
        rw [pickBest, pickBest, List.foldl_cons]
        rw [if_pos (by simpa using hepos)]
        rw [hval e (hs ▸ List.mem_cons_self _ _)]
      have hspec : specSelectedSpeaker l =
          (rest.map Prod.fst).foldl
            (fun best q => if confSum l best < confSum l q then q else best) e.1 := by
        rw [specSelectedSpeaker]
        have : firstOccurrence (l.map (·.participantId)) = e.1 :: rest.map Prod.fst := by
          rw [← hkeys, hs, List.map_cons]
        rw [this]
      rw [chooseSpeaker, hs, hfirst,
        pickBest_entries (confSum l) rest e.1 hrest, hspec, List.foldl_map]

/-! ## Lemmas: per-segment attribution -/

theorem qualifyingObs_conf_pos (sv : List VisualObservation)
    (seg : RawTranscriptSegment) :
    ∀ v ∈ qualifyingObs sv seg, 0 < v.speakingConfidence := by
  intro v hv
  rw [qualifyingObs, List.mem_filter] at hv
  have h3 : (3/10 : ℚ) < v.speakingConfidence := by
    have := hv.2
    simp only [Bool.and_eq_true, decide_eq_true_eq] at this
    exact this.2
  linarith

theorem mkSegment_visual (sv : List VisualObservation)
    (nm : List (String × String)) (lm : List (String × String × String))
    (seg : RawTranscriptSegment) (hq : qualifyingObs sv seg ≠ []) :
    (mkSegment sv nm lm seg).visualMatch = true ∧
    (mkSegment sv nm lm seg).confidence = 9/10 ∧
    (mkSegment sv nm lm seg).speakerId = specSelectedSpeaker (qualifyingObs sv seg) := by
  have hpos := qualifyingObs_conf_pos sv seg
  refine ⟨?_, ?_, ?_⟩
  · simp only [mkSegment]
    rw [if_neg hq]
  · simp only [mkSegment]
    rw [if_neg hq]
    simp
  · simp only [mkSegment]
    rw [if_neg hq]
    exact chooseSpeaker_eq_spec _ hq hpos

theorem fst_eq_of_mem_zip_map {α β : Type} (f : α → β) :
    ∀ (l : List α) (p : β × α), p ∈ (l.map f).zip l → p.1 = f p.2 := by
  intro l
  induction l with
  | nil => intro p hp; simp at hp
  | cons a l ih =>
      intro p hp
      rw [List.map_cons, List.zip_cons_cons] at hp
      rcases List.mem_cons.mp hp with h | h
      · rw [h]
      · exact ih p h

/-! ## Lemmas: rounding and percentage sums -/

/-- `Math.round` differs from its argument by at most one half. -/
theorem jsRound_err (x : ℚ) : |2 * ((jsRound x : ℤ) : ℚ) - 2 * x| ≤ 1 := by
  rw [jsRound, abs_le]
  constructor
  · have h := Int.sub_one_lt_floor (x + 1/2)
    have : ((⌊x + 1/2⌋ : ℤ) : ℚ) > x - 1/2 := by
      have := Int.sub_one_lt_floor (x + 1/2)
      linarith
    linarith
  · have h := Int.floor_le (x + 1/2)
    linarith

theorem sum_map_two_mul (g : ℚ → ℚ) :
    ∀ (l : List ℚ), (l.map fun t => 2 * g t).sum = 2 * (l.map g).sum := by
  intro l
  induction l with
  | nil => simp
  | cons a l ih => simp [ih]; ring

theorem sum_round_err (g : ℚ → ℚ) :
    ∀ (l : List ℚ),
      |(l.map fun t => 2 * ((jsRound (g t) : ℤ) : ℚ)).sum -
        (l.map fun t => 2 * g t).sum| ≤ (l.length : ℚ) := by
  intro l
  induction l with
  | nil => simp
  | cons a l ih =>
      rw [List.map_cons, List.map_cons, List.sum_cons, List.sum_cons,
        List.length_cons]
      have h1 := jsRound_err (g a)
      calc |2 * ((jsRound (g a) : ℤ) : ℚ) +
            (l.map fun t => 2 * ((jsRound (g t) : ℤ) : ℚ)).sum -
            (2 * g a + (l.map fun t => 2 * g t).sum)|
          ≤ |2 * ((jsRound (g a) : ℤ) : ℚ) - 2 * g a| +
            |(l.map fun t => 2 * ((jsRound (g t) : ℤ) : ℚ)).sum -
              (l.map fun t => 2 * g t).sum| := by
            have := abs_add (2 * ((jsRound (g a) : ℤ) : ℚ) - 2 * g a)
              ((l.map fun t => 2 * ((jsRound (g t) : ℤ) : ℚ)).sum -
                (l.map fun t => 2 * g t).sum)
            have heq : 2 * ((jsRound (g a) : ℤ) : ℚ) +
                (l.map fun t => 2 * ((jsRound (g t) : ℤ) : ℚ)).sum -
                (2 * g a + (l.map fun t => 2 * g t).sum) =
                (2 * ((jsRound (g a) : ℤ) : ℚ) - 2 * g a) +
                ((l.map fun t => 2 * ((jsRound (g t) : ℤ) : ℚ)).sum -
                  (l.map fun t => 2 * g t).sum) := by ring
            rw [heq]
            exact this
        _ ≤ 1 + (l.length : ℚ) := add_le_add h1 ih
        _ = ((l.length + 1 : ℕ) : ℚ) := by push_cast; ring

theorem sum_map_div_mul (T : ℚ) (hT : T ≠ 0) :
    ∀ (l : List ℚ), (l.map fun t => t / T * 100).sum = l.sum / T * 100 := by
  intro l
  induction l with
  | nil => simp
  | cons a l ih =>
      rw [List.map_cons, List.sum_cons, List.sum_cons, ih]
      field_simp
      ring

/-- Core percentage bound: for any list of durations summing to `T > 0`, the
rounded percentages sum to `100` up to half a unit per entry. -/
theorem percentage_sum_bound (l : List ℚ) (T : ℚ) (hT : 0 < T) (hsum : l.sum = T) :
    2 * |(l.map fun t => ((jsRound (t / T * 100) : ℤ) : ℚ)).sum - 100| ≤
      (l.length : ℚ) := by
  have hg := sum_round_err (fun t => t / T * 100) l
  have hlin : (l.map fun t => 2 * (t / T * 100)).sum = 200 := by
    rw [sum_map_two_mul (fun t => t / T * 100) l,
      sum_map_div_mul T (ne_of_gt hT) l, hsum]
    field_simp
    norm_num
  have h2 : (l.map fun t => 2 * ((jsRound (t / T * 100) : ℤ) : ℚ)).sum =
      2 * (l.map fun t => ((jsRound (t / T * 100) : ℤ) : ℚ)).sum :=
    sum_map_two_mul _ l
  rw [h2, hlin] at hg
  have habs : |2 * (l.map fun t => ((jsRound (t / T * 100) : ℤ) : ℚ)).sum - 200| =
      2 * |(l.map fun t => ((jsRound (t / T * 100) : ℤ) : ℚ)).sum - 100| := by
    rw [show 2 * (l.map fun t => ((jsRound (t / T * 100) : ℤ) : ℚ)).sum - 200 =
        2 * ((l.map fun t => ((jsRound (t / T * 100) : ℤ) : ℚ)).sum - 100) by ring,
      abs_mul]
    norm_num
  rw [← habs]
  exact hg

/-! ## Lemmas: the bot-status polling loop -/

theorem waitPolls_early (statuses : ℕ → Option RecallStatus) :
    ∀ (fuel start i : ℕ), start ≤ i → i < start + fuel →
      (∀ j, start ≤ j → j < i → pollTerminal (statuses j) = false) →
      pollTerminal (statuses i) = true →
      waitPolls statuses start fuel = (i + 1, true) := by
  intro fuel
  induction fuel with
  | zero =>
      intro start i h1 h2 _ _
      exfalso
      omega
  | succ fuel ih =>
      intro start i h1 h2 hpre hterm
      by_cases hs : start = i
      · subst hs
        simp [waitPolls, hterm]
      · have hlt : start < i := lt_of_le_of_ne h1 hs
        have hfalse : pollTerminal (statuses start) = false := hpre start le_rfl hlt
        rw [waitPolls, if_neg (by simp [hfalse])]
        exact ih (start + 1) i hlt (by omega)
          (fun j hj1 hj2 => hpre j (by omega) hj2) hterm

theorem waitPolls_timeout (statuses : ℕ → Option RecallStatus) :
    ∀ (fuel start : ℕ),
      (∀ j, start ≤ j → j < start + fuel → pollTerminal (statuses j) = false) →
      waitPolls statuses start fuel = (start + fuel, false) := by
  intro fuel
  induction fuel with
  | zero => intro start _; simp [waitPolls]
  | succ fuel ih =>
      intro start hall
      have h0 : pollTerminal (statuses start) = false :=
        hall start le_rfl (by omega)
      rw [waitPolls, if_neg (by simp [h0])]
      rw [ih (start + 1) (fun j hj1 hj2 => hall j (by omega) (by omega))]
      rw [Prod.mk.injEq]
      exact ⟨by omega, rfl⟩

theorem finalizeParticipant_time (T : ℚ) (sv : List VisualObservation)
    (p : DiarizedParticipant) :
    (finalizeParticipant T sv p).totalSpeakingTime = p.totalSpeakingTime := rfl

theorem finalizeParticipant_pct (T : ℚ) (sv : List VisualObservation)
    (p : DiarizedParticipant) (hT : 0 < T) :
    (finalizeParticipant T sv p).speakingPercentage =
      ((jsRound (p.totalSpeakingTime / T * 100) : ℤ) : ℚ) := by
  simp only [finalizeParticipant]
  rw [if_pos hT]

set_option maxHeartbeats 1000000 in
theorem buildParticipantSummaries_pct_bound (segments : List DiarizedSegment)
    (sv : List VisualObservation)
    (h : 0 < ((buildParticipantSummaries segments sv).map (·.totalSpeakingTime)).sum) :
    2 * |((buildParticipantSummaries segments sv).map (·.speakingPercentage)).sum - 100| ≤
      ((buildParticipantSummaries segments sv).length : ℚ) := by
  have hunfold : buildParticipantSummaries segments sv =
      (accumParticipants segments).map
        (fun e => finalizeParticipant
          (((accumParticipants segments).map (fun e => e.2.totalSpeakingTime)).sum)
          sv e.2) := rfl
  rw [hunfold] at h ⊢
  have htimes :
      ((accumParticipants segments).map
        (fun e => finalizeParticipant
          (((accumParticipants segments).map (fun e => e.2.totalSpeakingTime)).sum)
          sv e.2)).map (·.totalSpeakingTime) =
      (accumParticipants segments).map (fun e => e.2.totalSpeakingTime) := by
    rw [List.map_map]
    rfl
  rw [htimes] at h
  have hpct :
      ((accumParticipants segments).map
        (fun e => finalizeParticipant
          (((accumParticipants segments).map (fun e => e.2.totalSpeakingTime)).sum)
          sv e.2)).map (·.speakingPercentage) =
      ((accumParticipants segments).map (fun e => e.2.totalSpeakingTime)).map
        (fun t => ((jsRound
          (t / (((accumParticipants segments).map (fun e => e.2.totalSpeakingTime)).sum)
            * 100) : ℤ) : ℚ)) := by
    rw [List.map_map, List.map_map]
    refine List.map_congr_left ?_
    intro e _
    exact finalizeParticipant_pct _ sv e.2 h
  rw [hpct]
  have hlen :
      (((accumParticipants segments).map
        (fun e => finalizeParticipant
          (((accumParticipants segments).map (fun e => e.2.totalSpeakingTime)).sum)
          sv e.2)).length : ℚ) =
      ((((accumParticipants segments).map (fun e => e.2.totalSpeakingTime)).length : ℕ) : ℚ) := by
    simp
  rw [hlen]
  generalize hq : (accumParticipants segments).map (fun e => e.2.totalSpeakingTime) = q at h ⊢
  exact percentage_sum_bound q q.sum h rfl

/-! ## Concrete inputs used by witnesses and counterexamples -/

/-- The spec's end-to-end scenario segment: `{text:"hello", startTime:0, endTime:2}`. -/
def wSeg : RawTranscriptSegment :=
  { text := "hello", startTime := 0, endTime := 2, speakerLabel := none,
    confidence := none }

/-- The spec's end-to-end scenario observation: Ann (`p1`) speaking at `t=1`
with confidence `0.9`, looking happy. -/
def wObs : VisualObservation :=
  { timestamp := 1, participantId := "p1", participantName := some "Ann",
    isSpeaking := true, speakingConfidence := 9/10,
    expression := Expression.happy, expressionConfidence := 8/10,
    headPose := none }

/-- The diarized segment `diarize` produces for `wSeg`/`wObs`. -/
def wDiarizedSeg : DiarizedSegment :=
  { text := "hello", startTime := 0, endTime := 2, speakerId := "p1",
    speakerName := "Ann", confidence := 9/10,
    dominantExpression := Expression.happy, expressionConfidence := 4/5,
    expressions := [(Expression.happy, 100)], isSpeaking := true,
    engagement := Level.high, audioSource := AudioSource.whisper,
    visualMatch := true }

/-- Six equal-length segments spoken by six different participants. -/
def cxSegs : List RawTranscriptSegment :=
  [{ text := "a", startTime := 0, endTime := 2, speakerLabel := none, confidence := none },
   { text := "b", startTime := 3, endTime := 5, speakerLabel := none, confidence := none },
   { text := "c", startTime := 6, endTime := 8, speakerLabel := none, confidence := none },
   { text := "d", startTime := 9, endTime := 11, speakerLabel := none, confidence := none },
   { text := "e", startTime := 12, endTime := 14, speakerLabel := none, confidence := none },
   { text := "f", startTime := 15, endTime := 17, speakerLabel := none, confidence := none }]

/-- One confident speaking observation inside each of the six segments,
each from a distinct participant. -/
def cxObs : List VisualObservation :=
  [{ timestamp := 1, participantId := "p1", participantName := none,
     isSpeaking := true, speakingConfidence := 1,
     expression := Expression.neutral, expressionConfidence := 1, headPose := none },
   { timestamp := 4, participantId := "p2", participantName := none,
     isSpeaking := true, speakingConfidence := 1,
     expression := Expression.neutral, expressionConfidence := 1, headPose := none },
   { timestamp := 7, participantId := "p3", participantName := none,
     isSpeaking := true, speakingConfidence := 1,
     expression := Expression.neutral, expressionConfidence := 1, headPose := none },
   { timestamp := 10, participantId := "p4", participantName := none,
     isSpeaking := true, speakingConfidence := 1,
     expression := Expression.neutral, expressionConfidence := 1, headPose := none },
   { timestamp := 13, participantId := "p5", participantName := none,
     isSpeaking := true, speakingConfidence := 1,
     expression := Expression.neutral, expressionConfidence := 1, headPose := none },
   { timestamp := 16, participantId := "p6", participantName := none,
     isSpeaking := true, speakingConfidence := 1,
     expression := Expression.neutral, expressionConfidence := 1, headPose := none }]

/-! ## Claims about the diarization engine -/

/-- C1: for every transcript segment whose `[startTime, endTime]` window
contains at least one visual observation with `isSpeaking = true` and
`speakingConfidence > 0.3`, the diarized segment produced for it has
`visualMatch = true`, `confidence = 0.9`, and `speakerId` equal to the
participant with the highest sum of `speakingConfidence` over the
qualifying observations in that window, ties broken in favour of the
participant occurring first in observation order (the order of the
timestamp-sorted observation list the engine iterates over). -/
theorem diarize_visual_attribution (b : List VisualObservation)
    (ts : List RawTranscriptSegment) (vo : List VisualObservation)
    (names : List String) (d : DiarizedSegment) (s : RawTranscriptSegment)
    (hmem : (d, s) ∈ (diarize b ts vo names).segments.zip (sortTranscript ts))
    (hq : qualifyingObs (sortVisual (b ++ vo)) s ≠ []) :
    d.visualMatch = true ∧ d.confidence = 9/10 ∧
    d.speakerId = specSelectedSpeaker (qualifyingObs (sortVisual (b ++ vo)) s) := by
  have hsegs : (diarize b ts vo names).segments =
      (sortTranscript ts).map
        (mkSegment (sortVisual (b ++ vo))
          (buildSpeakerNameMap (sortVisual (b ++ vo)) names)
          (mapSpeakerLabelsToParticipants (sortTranscript ts) (sortVisual (b ++ vo)))) :=
    rfl
  rw [hsegs] at hmem
  have hd : d = mkSegment (sortVisual (b ++ vo))
      (buildSpeakerNameMap (sortVisual (b ++ vo)) names)
      (mapSpeakerLabelsToParticipants (sortTranscript ts) (sortVisual (b ++ vo))) s :=
    fst_eq_of_mem_zip_map _ _ _ hmem
  rw [hd]
  exact mkSegment_visual _ _ _ _ hq

/-- Witness for C1: the spec's own end-to-end scenario, where Ann (`p1`)
is attributed the segment with confidence `0.9` and a visual match. -/
theorem diarize_visual_attribution_witness :
    wDiarizedSeg.visualMatch = true ∧ wDiarizedSeg.confidence = 9/10 ∧
    wDiarizedSeg.speakerId =
      specSelectedSpeaker (qualifyingObs (sortVisual ([] ++ [wObs])) wSeg) :=
  diarize_visual_attribution [] [wSeg] [wObs] [] wDiarizedSeg wSeg
    (by with_unfolding_all decide) (by with_unfolding_all decide)

/-- C2: `diarize` returns exactly one diarized segment per input transcript
segment (the underlying `(text, startTime, endTime)` triples are a
permutation of the input's), and the output is in time order
(non-decreasing `startTime`). -/
theorem diarize_output_shape (b : List VisualObservation)
    (ts : List RawTranscriptSegment) (vo : List VisualObservation)
    (names : List String) :
    (diarize b ts vo names).segments.length = ts.length ∧
    ((diarize b ts vo names).segments.map fun s => (s.text, s.startTime, s.endTime)).Perm
      (ts.map fun s => (s.text, s.startTime, s.endTime)) ∧
    (diarize b ts vo names).segments.Pairwise fun a c => a.startTime ≤ c.startTime := by
  have hsegs : (diarize b ts vo names).segments =
      (sortTranscript ts).map
        (mkSegment (sortVisual (b ++ vo))
          (buildSpeakerNameMap (sortVisual (b ++ vo)) names)
          (mapSpeakerLabelsToParticipants (sortTranscript ts) (sortVisual (b ++ vo)))) :=
    rfl
  refine ⟨?_, ?_, ?_⟩
  · rw [hsegs, List.length_map, sortTranscript, List.length_insertionSort]
  · rw [hsegs, List.map_map]
    have hcomp : ((fun s : DiarizedSegment => (s.text, s.startTime, s.endTime)) ∘
        mkSegment (sortVisual (b ++ vo))
          (buildSpeakerNameMap (sortVisual (b ++ vo)) names)
          (mapSpeakerLabelsToParticipants (sortTranscript ts) (sortVisual (b ++ vo)))) =
        fun s : RawTranscriptSegment => (s.text, s.startTime, s.endTime) := rfl
    rw [hcomp, sortTranscript]
    exact (List.perm_insertionSort _ ts).map _
  · rw [hsegs, List.pairwise_map]
    haveI h1 : IsTotal RawTranscriptSegment (fun a b => a.startTime ≤ b.startTime) :=
      ⟨fun a b => le_total a.startTime b.startTime⟩
    haveI h2 : IsTrans RawTranscriptSegment (fun a b => a.startTime ≤ b.startTime) :=
      ⟨fun _ _ _ hab hbc => le_trans hab hbc⟩
    have hs := List.sorted_insertionSort
      (fun a b : RawTranscriptSegment => a.startTime ≤ b.startTime) ts
    exact hs.imp (fun h => h)

/-- C8 (amended): whenever the participants' total speaking time is
positive, the sum of `speakingPercentage` over all returned participants
differs from `100` by at most half a percentage point per participant
(`2·|sum − 100| ≤ #participants`); the fixed `±1` window claimed by the
spec holds only for at most two participants. -/
theorem diarize_speaking_percentage_sum (b : List VisualObservation)
    (ts : List RawTranscriptSegment) (vo : List VisualObservation)
    (names : List String)
    (h : 0 < ((diarize b ts vo names).participants.map (·.totalSpeakingTime)).sum) :
    2 * |((diarize b ts vo names).participants.map (·.speakingPercentage)).sum - 100| ≤
      ((diarize b ts vo names).participants.length : ℚ) := by
  have hp : (diarize b ts vo names).participants =
      buildParticipantSummaries
        ((sortTranscript ts).map
          (mkSegment (sortVisual (b ++ vo))
            (buildSpeakerNameMap (sortVisual (b ++ vo)) names)
            (mapSpeakerLabelsToParticipants (sortTranscript ts) (sortVisual (b ++ vo)))))
        (sortVisual (b ++ vo)) := rfl
  rw [hp] at h ⊢
  exact buildParticipantSummaries_pct_bound _ _ h

/-- Counterexample to C8 as stated: six equal-duration segments from six
participants give each participant `round(100/6) = 17` percent, summing to
`102`, outside `[99, 101]` even though segments exist. -/
theorem diarize_speaking_percentage_sum_counterexample :
    0 < cxSegs.length ∧
    ((diarize [] cxSegs cxObs []).participants.map (·.speakingPercentage)).sum = 102 ∧
    ¬ (99 ≤ ((diarize [] cxSegs cxObs []).participants.map (·.speakingPercentage)).sum ∧
        ((diarize [] cxSegs cxObs []).participants.map (·.speakingPercentage)).sum ≤ 101) := by
  with_unfolding_all decide

/-- Witness for C8 (amended): the single-speaker scenario has positive total
speaking time and percentage sum exactly 100. -/
theorem diarize_speaking_percentage_sum_witness :
    0 < ((diarize [] [wSeg] [wObs] []).participants.map (·.totalSpeakingTime)).sum ∧
    2 * |((diarize [] [wSeg] [wObs] []).participants.map (·.speakingPercentage)).sum - 100| ≤
      ((diarize [] [wSeg] [wObs] []).participants.length : ℚ) :=
  ⟨by with_unfolding_all decide,
   diarize_speaking_percentage_sum [] [wSeg] [wObs] [] (by with_unfolding_all decide)⟩

/-- C9: `diarize` is deterministic.  The method call is modelled with the
service state (visual buffer) and the ambient effects (wall clock, random
stream) passed explicitly; the result is independent of the ambient
environment, the buffer is not mutated, and a second call with identical
arguments returns the identical `DiarizationResult`. -/
theorem diarize_deterministic (st : DiarizationServiceState) (e₁ e₂ : AmbientEnv)
    (ts : List RawTranscriptSegment) (vo : List VisualObservation)
    (names : List String) :
    (diarizeCall st e₁ ts vo names).1 = (diarizeCall st e₂ ts vo names).1 ∧
    (diarizeCall st e₁ ts vo names).2 = st ∧
    diarizeCall (diarizeCall st e₁ ts vo names).2 e₂ ts vo names =
      diarizeCall st e₁ ts vo names :=
  ⟨rfl, rfl, rfl⟩

/-- C10: every segment produced by `diarize` carries the constant fields
`isSpeaking = true` and `audioSource = 'whisper'`, regardless of visual
matches or transcript origin. -/
theorem diarize_segment_constant_fields (b : List VisualObservation)
    (ts : List RawTranscriptSegment) (vo : List VisualObservation)
    (names : List String) (s : DiarizedSegment)
    (h : s ∈ (diarize b ts vo names).segments) :
    s.isSpeaking = true ∧ s.audioSource = AudioSource.whisper := by
  have hsegs : (diarize b ts vo names).segments =
      (sortTranscript ts).map
        (mkSegment (sortVisual (b ++ vo))
          (buildSpeakerNameMap (sortVisual (b ++ vo)) names)
          (mapSpeakerLabelsToParticipants (sortTranscript ts) (sortVisual (b ++ vo)))) :=
    rfl
  rw [hsegs] at h
  rcases List.mem_map.mp h with ⟨x, _, hx⟩
  exact hx ▸ ⟨rfl, rfl⟩

/-- Witness for C10 at the end-to-end scenario input. -/
theorem diarize_segment_constant_fields_witness :
    wDiarizedSeg.isSpeaking = true ∧ wDiarizedSeg.audioSource = AudioSource.whisper :=
  diarize_segment_constant_fields [] [wSeg] [wObs] [] wDiarizedSeg
    (by with_unfolding_all decide)

/-! ## Concrete pipeline inputs for witnesses and counterexamples -/

/-- Fresh orchestrator state (`status: 'idle'`). -/
def idleState : PipelineState :=
  { status := PipelineStatus.idle, meetingTitle := "", meetingUrl := none,
    platform := "", botId := none, captureActive := false,
    participantCount := 0, segmentCount := 0, duration := 0, error := none,
    reviewId := none, startedAt := none }

/-- A session that is currently capturing (active). -/
def activeState : PipelineState :=
  { idleState with status := PipelineStatus.capturing, botId := some "bot-1" }

/-- A start configuration with a capture source selected. -/
def wCfg : PipelineConfig :=
  { meetingUrl := "https://meet.example/abc", meetingTitle := "Standup",
    platform := "meet", captureSourceId := some "screen:1",
    participantNames := [], recallApiKey := none }

/-- Environment where bot deployment succeeds but capture startup throws. -/
def envCaptureFail : StartEnv :=
  { deployBot := Except.ok "bot-1", electronAvailable := true,
    captureStart := Except.error "capture device lost", now := 0 }

/-- Environment where bot deployment itself fails. -/
def envDeployFail : StartEnv :=
  { deployBot := Except.error "network down", electronAvailable := false,
    captureStart := Except.ok (), now := 0 }

/-- A non-empty bot transcript segment. -/
def wBotSeg : RecallSeg :=
  { speakerId := 7, text := "bot words", startTime := 0, endTime := 1,
    confidence := none }

/-- A non-empty local-transcription segment. -/
def wLocalSeg : WhisperSeg :=
  { text := "local words", startTime := 0, endTime := 1, speakerName := "",
    confidence := 1 }

/-- Stop environment: every collaborator succeeds, the bot returns a
non-empty transcript AND a recording URL, and local transcription also
returns a (different) non-empty result. -/
def envStop : StopEnv :=
  { captureCleanup := Except.ok (), stopBot := Except.ok (),
    statuses := fun _ => some RecallStatus.done,
    getRecording := Except.ok (some (some "rec.mp3")),
    getTranscript := Except.ok (some [wBotSeg]),
    transcribeFile := Except.ok [wLocalSeg],
    generateReview := Except.ok { id := "rev-1" },
    moltbookUpload := Except.ok (), now := 0 }

/-! ## Claims about the orchestrator -/

/-- C3 (amended): only bot deployment can fail `start()` — the `try` block's
other steps either cannot throw or swallow their own errors.  On a
deployment failure the orchestrator transitions to `error`, records
`Failed to deploy bot: <msg>` in `state.error`, emits an error event before
`start()` rethrows, and the duration ticker is left exactly as it was
(it is never started on this path; the catch block performs no explicit
stop).  A capture-startup failure, by contrast, is caught and logged and
`start()` still succeeds (see the counterexample). -/
theorem start_deploy_failure_path (st : PipelineState) (timer : Bool)
    (cfg : PipelineConfig) (env : StartEnv) (e : String)
    (hact : isActive st = false) (hdep : env.deployBot = Except.error e) :
    (start st timer cfg env).thrown = some ("Failed to deploy bot: " ++ e) ∧
    (start st timer cfg env).state.status = PipelineStatus.error ∧
    (start st timer cfg env).state.error = some ("Failed to deploy bot: " ++ e) ∧
    PipelineEvent.errorEvent ("Failed to deploy bot: " ++ e) ∈
      (start st timer cfg env).events ∧
    (start st timer cfg env).timerRunning = timer := by
  rw [start, if_neg (by simp [hact]), hdep]
  refine ⟨rfl, rfl, rfl, ?_, rfl⟩
  simp

/-- Witness for C3 (amended): a concrete deployment failure from the idle
state, with the ticker not running afterwards. -/
theorem start_deploy_failure_path_witness :
    (start idleState false wCfg envDeployFail).thrown =
      some ("Failed to deploy bot: " ++ "network down") ∧
    (start idleState false wCfg envDeployFail).state.status = PipelineStatus.error ∧
    (start idleState false wCfg envDeployFail).state.error =
      some ("Failed to deploy bot: " ++ "network down") ∧
    PipelineEvent.errorEvent ("Failed to deploy bot: " ++ "network down") ∈
      (start idleState false wCfg envDeployFail).events ∧
    (start idleState false wCfg envDeployFail).timerRunning = false :=
  start_deploy_failure_path idleState false wCfg envDeployFail "network down"
    rfl rfl

/-- Counterexample to C3 as stated: a capture-startup failure does not
transition to `error` — it is swallowed, no error is recorded and `start()`
completes into `capturing`. -/
theorem start_capture_failure_swallowed :
    (start idleState false wCfg envCaptureFail).thrown = none ∧
    (start idleState false wCfg envCaptureFail).state.status =
      PipelineStatus.capturing ∧
    (start idleState false wCfg envCaptureFail).state.error = none :=
  ⟨rfl, rfl, rfl⟩

/-- C4 (amended): the polling loop returns at the first poll whose status is
`done` or `error` (`fatal` is NOT treated as terminal by the code — see the
counterexample); polls are 3 s apart, so with the 120 s ceiling at most 40
polls happen, after which the loop logs a warning and returns normally
(second component `false`) instead of blocking or failing. -/
theorem waitForBot_polling_contract (statuses : ℕ → Option RecallStatus) :
    (∀ i, i < 40 → (∀ j, j < i → pollTerminal (statuses j) = false) →
      pollTerminal (statuses i) = true →
      waitForBotProcessing statuses 120000 = (i + 1, true)) ∧
    ((∀ j, j < 40 → pollTerminal (statuses j) = false) →
      waitForBotProcessing statuses 120000 = (40, false)) := by
  constructor
  · intro i hi hpre hterm
    rw [waitForBotProcessing]
    exact waitPolls_early statuses 40 0 i (Nat.zero_le i) (by omega)
      (fun j _ hj => hpre j hj) hterm
  · intro hall
    rw [waitForBotProcessing]
    exact waitPolls_timeout statuses 40 0 (fun j _ hj => hall j (by omega))

/-- Witness for C4 (amended): a bot that answers `done` on the third poll
terminates the loop after 3 polls; a bot stuck in `processing` exhausts all
40 polls and the loop proceeds. -/
theorem waitForBot_polling_contract_witness :
    waitForBotProcessing
      (fun i => if i = 2 then some RecallStatus.done else some RecallStatus.processing)
      120000 = (3, true) ∧
    waitForBotProcessing (fun _ => some RecallStatus.processing) 120000 = (40, false) :=
  ⟨(waitForBot_polling_contract _).1 2 (by decide)
      (by decide) (by decide),
   (waitForBot_polling_contract _).2 (by decide)⟩

/-- Counterexample to C4 as stated: a bot reporting `fatal` forever is not
treated as terminal — the loop runs all 40 polls (the full 120 s ceiling)
instead of returning at the first poll. -/
theorem waitForBot_fatal_not_terminal :
    waitForBotProcessing (fun _ => some RecallStatus.fatal) 120000 = (40, false) := by
  decide

/-- C5 (amended): during `stop()`, local transcription is attempted whenever
a recorded-audio path is available — even when the bot already returned a
non-empty transcript — and a successful non-empty local result is what gets
handed to diarization, replacing the bot transcript.  The bot transcript is
used only when local transcription is unavailable, fails, or returns no
segments. -/
theorem stop_transcript_selection (st : PipelineState) (timer : Bool)
    (audio0 : Option String) (buffer : List VisualObservation)
    (names : List String) (env : StopEnv) (url : String)
    (wsegs : List WhisperSeg)
    (hact : isActive st = true)
    (hcc : env.captureCleanup = Except.ok ())
    (haud : (botPhase st.botId audio0 env).1 = some url)
    (hw : env.transcribeFile = Except.ok wsegs)
    (hlen : 0 < wsegs.length) :
    (stop st timer audio0 buffer names env).diarizedTranscript =
      some (wsegs.map mapWhisperSeg) ∧
    (stop st timer audio0 buffer names env).localTranscriptionAttempted = true := by
  rw [stop, if_neg (by simp [hact]), hcc]
  have hbot : botPhase st.botId audio0 env =
      (some url, (botPhase st.botId audio0 env).2) := by
    rw [← haud]
  rw [hbot]
  simp only [whisperPhase, hw]
  rw [if_pos hlen]
  cases env.generateReview with
  | error e => exact ⟨rfl, rfl⟩
  | ok r => exact ⟨rfl, rfl⟩

/-- Witness for C5 (amended): with `envStop` (bot transcript non-empty,
audio present, local transcription non-empty) the local output is the one
diarized. -/
theorem stop_transcript_selection_witness :
    (stop activeState true none [] [] envStop).diarizedTranscript =
      some ([wLocalSeg].map mapWhisperSeg) ∧
    (stop activeState true none [] [] envStop).localTranscriptionAttempted = true :=
  stop_transcript_selection activeState true none [] [] envStop "rec.mp3" [wLocalSeg]
    rfl rfl (by with_unfolding_all decide) rfl (by decide)

/-- Counterexample to C5 as stated: in `envStop` the bot returned a
non-empty transcript, yet local transcription still ran and its output —
not the bot transcript — was handed to diarization. -/
theorem stop_local_transcription_overrides_bot :
    envStop.getTranscript = Except.ok (some [wBotSeg]) ∧
    (stop activeState true none [] [] envStop).localTranscriptionAttempted = true ∧
    (stop activeState true none [] [] envStop).diarizedTranscript =
      some [mapWhisperSeg wLocalSeg] ∧
    (stop activeState true none [] [] envStop).diarizedTranscript ≠
      some ([wBotSeg].map mapRecallSeg) := by
  refine ⟨rfl, ?_, ?_, ?_⟩ <;> with_unfolding_all decide

/-- C6 (amended): `stop()` raises no exception for any environment — its
outcome is reported solely through the terminal state and the returned
review (or its absence).  `start()`, however, does have an exception
channel (see the counterexample), so the claim holds for `stop` only. -/
theorem stop_never_throws (st : PipelineState) (timer : Bool)
    (audio0 : Option String) (buffer : List VisualObservation)
    (names : List String) (env : StopEnv) :
    (stop st timer audio0 buffer names env).thrown = none := by
  rw [stop]
  by_cases h : isActive st = true
  · rw [if_neg (by simp [h])]
    cases env.captureCleanup with
    | error e => rfl
    | ok u =>
        cases env.generateReview with
        | error e => rfl
        | ok r => rfl
  · rw [if_pos (by simp [h])]

/-- Counterexample to C6 as stated: `start()` does raise an exception to the
caller on a deployment failure, so failure is not signalled only through
state and review for the `start` half of the contract. -/
theorem start_throws_on_failure :
    (start idleState false wCfg envDeployFail).thrown ≠ none :=
  by decide

/-- C7: calling `start(config)` while a session is active fails with the
already-active error and leaves everything untouched: same state object,
timer unchanged, and no event emitted. -/
theorem start_already_active_unchanged (st : PipelineState) (timer : Bool)
    (cfg : PipelineConfig) (env : StartEnv) (h : isActive st = true) :
    start st timer cfg env =
      { state := st, timerRunning := timer, events := [],
        thrown := some "A pipeline is already active. Stop it first." } := by
  rw [start, if_pos h]

/-- Witness for C7: a concrete active session rejects a second `start`. -/
theorem start_already_active_unchanged_witness :
    start activeState false wCfg envDeployFail =
      { state := activeState, timerRunning := false, events := [],
        thrown := some "A pipeline is already active. Stop it first." } :=
  start_already_active_unchanged activeState false wCfg envDeployFail rfl

end Zinc
